import Mathlib

/-
Verification of the PM2.5 forecasting framework
(pm25_forecast_assessment: hrrr.py, naqfc.py, experiment.py).

The Python sources are shallowly embedded below.  Python floats are
modelled as rationals (ℚ), float NaN as `Option.none`, Python
exceptions as `Except`, pandas DataFrames as lists of rows, and the
network (requests.get / xarray decoding) as explicit `fetch`
parameters supplying the decoded remote datasets.  String handling is
done at the character-list level so that every operation reduces in
the kernel.
-/

deriving instance DecidableEq for Except

namespace PM25

/- ---------------------------------------------------------------
   Character-level string utilities (Python str.split, substring
   membership, int(), and %-formatting used by the sources).
   --------------------------------------------------------------- -/

/-- Digits of a natural number, most significant first; the first
argument is recursion fuel (always sufficient when fuel > n). -/
def natToCharsAux : Nat → Nat → List Char
  | 0, _ => []
  | fuel+1, n =>
    if n < 10 then [Char.ofNat (48 + n)]
    else natToCharsAux fuel (n / 10) ++ [Char.ofNat (48 + n % 10)]

/-- Decimal digit characters of a natural number. -/
def natToChars (n : Nat) : List Char := natToCharsAux (n+1) n

/-- Left-pad a character list with the zero digit up to width `k`,
modelling Python `%0kd` formatting. -/
def padZeros (k : Nat) (cs : List Char) : List Char :=
  List.replicate (k - cs.length) '0' ++ cs

/-- Python `f"{n:02}"` on a (possibly negative) integer. -/
def intPad2 (n : Int) : String :=
  if n < 0 then String.mk ('-' :: natToChars n.natAbs)
  else String.mk (padZeros 2 (natToChars n.toNat))

/-- Accumulating decimal parser over digit characters. -/
def parseNatAux : List Char → Nat → Option Nat
  | [], acc => some acc
  | c :: cs, acc =>
    if c.isDigit then parseNatAux cs (acc * 10 + (c.toNat - 48))
    else none

/-- Python `int(s)` restricted to non-negative decimal literals;
`none` models the `ValueError` raised on non-numeric text. -/
def parseNat? (cs : List Char) : Option Nat :=
  if cs.isEmpty then none else parseNatAux cs 0

/-- Python `pat in s` substring membership on character lists. -/
def hasSubstr (pat : List Char) : List Char → Bool
  | [] => pat.isEmpty
  | c :: cs => pat.isPrefixOf (c :: cs) || hasSubstr pat cs

/-- Python `s.split(sep)` for a one-character separator. -/
def splitOnChar (sep : Char) : List Char → List (List Char)
  | [] => [[]]
  | c :: cs =>
    match splitOnChar sep cs with
    | [] => if c = sep then [[], [c]] else [[c]]
    | r :: rs => if c = sep then [] :: r :: rs else (c :: r) :: rs

/- ---------------------------------------------------------------
   Numeric model: np.round(x, 2).
   --------------------------------------------------------------- -/

/-- Nearest integer to `100 * q` with ties to even (numpy's rounding
rule), computed on the numerator/denominator representation so that
the kernel can evaluate it. -/
def roundHalfEven100 (q : ℚ) : Int :=
  let n := 100 * q.num
  let d : Int := (q.den : Int)
  let f := n.fdiv d
  let r2 := 2 * (n - f * d)
  if r2 < d then f else if d < r2 then f + 1 else if f % 2 = 0 then f else f + 1

/-- Models `np.round(x, 2)`: rounding to two decimal places. -/
def npRound2 (q : ℚ) : ℚ := Rat.divInt (roundHalfEven100 q) 100

/- ---------------------------------------------------------------
   Data model: one row of a ForecastTable.  `PM25 = none` models a
   float NaN entry.  ValidTime is kept as the numeric hour it
   denotes (hrrr.py stores the decimal string of this number,
   naqfc.py stores the number itself).
   --------------------------------------------------------------- -/

structure Row where
  Latitude : Rat
  Longitude : Rat
  ValidTime : Nat
  PM25 : Option Rat
deriving DecidableEq

/- ---------------------------------------------------------------
   Dates: Python datetime restricted to its (year, month, day)
   components, compared lexicographically exactly as Python
   compares datetimes with a zero time-of-day part.
   --------------------------------------------------------------- -/

structure PyDate where
  year : Nat
  month : Nat
  day : Nat
deriving DecidableEq

/-- Python `<` on datetimes (dates at midnight): lexicographic on
(year, month, day). -/
def PyDate.ltB (a b : PyDate) : Bool :=
  if a.year ≠ b.year then decide (a.year < b.year)
  else if a.month ≠ b.month then decide (a.month < b.month)
  else decide (a.day < b.day)

/-- Python `f"{day:%Y%m%d}"`. -/
def dateYYYYMMDD (d : PyDate) : String :=
  String.mk (padZeros 4 (natToChars d.year) ++ padZeros 2 (natToChars d.month)
    ++ padZeros 2 (natToChars d.day))

/- ---------------------------------------------------------------
   Error kinds raised by the pipeline (the sources raise ValueError
   with distinguishing messages; the spec names them UnsupportedPeriod,
   InvalidCycle and GridShapeMismatch).
   --------------------------------------------------------------- -/

inductive PipelineError where
  | UnsupportedPeriod
  | InvalidCycle
  | GridShapeMismatch
deriving DecidableEq

inductive AQMVersion where
  | AQMv5
  | AQMv6
  | AQMv7
deriving DecidableEq

/-- Directory component of each AQM version. -/
def AQMVersion.str : AQMVersion → String
  | .AQMv5 => "AQMv5"
  | .AQMv6 => "AQMv6"
  | .AQMv7 => "AQMv7"

/-- naqfc.py `get_AQM_version`: year < 2020 raises (UnsupportedPeriod);
dates before 2021-07-20 are AQMv5, before 2024-05-14 AQMv6, else AQMv7. -/
def get_AQM_version (day : PyDate) : Except PipelineError AQMVersion :=
  if day.year < 2020 then .error .UnsupportedPeriod
  else if PyDate.ltB day ⟨2021, 7, 20⟩ then .ok .AQMv5
  else if PyDate.ltB day ⟨2024, 5, 14⟩ then .ok .AQMv6
  else .ok .AQMv7

/- ---------------------------------------------------------------
   NAQFC source (naqfc.py).  The remote archive is modelled by a
   `fetch` function from the request URL to the decoded dataset:
   flattened latitude/longitude planes plus the `pmtf` variable
   plane for each forecast step.
   --------------------------------------------------------------- -/

structure NaqfcDataset where
  latitude : List Rat
  longitude : List Rat
  pmtf : Nat → List (Option Rat)

/-- URL built by naqfc.py `create_naqfc_url_and_get_xr`. -/
def naqfc_url (v : AQMVersion) (day : PyDate) (cycle : Int) : String :=
  "https://noaa-nws-naqfc-pds.s3.amazonaws.com/" ++ v.str ++ "/CS/"
    ++ dateYYYYMMDD day ++ "/" ++ intPad2 cycle ++ "/"
    ++ "aqm.t" ++ intPad2 cycle ++ "z.ave_1hr_pm25_bc."
    ++ dateYYYYMMDD day ++ ".227.grib2"

/-- naqfc.py `create_naqfc_url_and_get_xr`: rejects cycles other
than 6 and 12 (InvalidCycle), resolves the format epoch, builds the
URL and fetches/decodes the remote grid object. -/
def create_naqfc_url_and_get_xr (fetch : String → NaqfcDataset) (day : PyDate)
    (cycle : Int) : Except PipelineError NaqfcDataset :=
  if cycle ≠ 6 ∧ cycle ≠ 12 then .error .InvalidCycle
  else
    match get_AQM_version day with
    | .error e => .error e
    | .ok v => .ok (fetch (naqfc_url v day cycle))

/-- One per-step frame of naqfc.py `naqfc_data_download`: rows pair
the flattened coordinate planes with `np.repeat(12+i, len)` as
ValidTime and `np.round(pmtf step values, 2)` as PM25. -/
def naqfc_step_df (ds : NaqfcDataset) (i : Nat) : List Row :=
  List.zipWith3 (fun la lo p => Row.mk la lo (12 + i) (p.map npRound2))
    ds.latitude ds.longitude (ds.pmtf i)

/-- naqfc.py `naqfc_data_download`: fetch the cycle's grid, build one
frame per step i = 1..24, concatenate them in step order, and drop
rows whose PM25 is NaN. -/
def naqfc_data_download (fetch : String → NaqfcDataset) (date : PyDate)
    (cycle : Int) : Except PipelineError (List Row) :=
  match create_naqfc_url_and_get_xr fetch date cycle with
  | .error e => .error e
  | .ok ds =>
    let data := (List.range' 1 24).map (naqfc_step_df ds)
    let df := data.flatten
    .ok (df.filter (fun r => r.PM25.isSome))

/- ---------------------------------------------------------------
   HRRR source (hrrr.py).  The decoded remote object is the
   flattened latitude/longitude planes plus the MASSDEN ("unknown")
   variable plane; `fetch` maps the leadtime of the request to that
   decoded dataset (the URL itself is a deterministic function of
   (date, cycle, leadtime)).
   --------------------------------------------------------------- -/

structure HrrrRawDataset where
  latitude : List Rat
  longitude : List Rat
  unknown : List (Option Rat)

/-- Manifest logic of hrrr.py `create_url_and_get_xr` (the .idx
processing): find the first idx line containing "MASSDEN", read its
line-number field and byte-offset field, and build the HTTP Range
header `bytes=<start>-<end>` where `<end>` is the offset field of
the manifest line indexed by the line number (the line after the
MASSDEN line, under 1-based sequential numbering); when no such line
exists the source interpolates Python `None`, producing the literal
text `bytes=<start>-None`.  `none` models the exceptions raised on
malformed manifests (no MASSDEN line, non-numeric line number, or a
missing offset field). -/
def massden_range_header (idx : List String) : Option String :=
  match idx.filter (fun l => hasSubstr (String.data "MASSDEN") l.data) with
  | [] => none
  | l :: _ =>
    let smk_line := splitOnChar ':' l.data
    match smk_line.head? with
    | none => none
    | some numField =>
      match parseNat? numField with
      | none => none
      | some line_num =>
        match smk_line.get? 1 with
        | none => none
        | some range_start =>
          if h : line_num < idx.length then
            match (splitOnChar ':' (idx.get ⟨line_num, h⟩).data).get? 1 with
            | none => none
            | some range_end =>
              some ("bytes=" ++ String.mk range_start ++ "-" ++ String.mk range_end)
          else
            some ("bytes=" ++ String.mk range_start ++ "-None")

/-- Decoding step of hrrr.py `create_url_and_get_xr`: the sanity
assert that the flattened latitude, longitude and MASSDEN planes
have equal lengths (GridShapeMismatch on violation). -/
def hrrr_open_ds (raw : HrrrRawDataset) : Except PipelineError HrrrRawDataset :=
  if raw.latitude.length = raw.longitude.length
      ∧ raw.longitude.length = raw.unknown.length
  then .ok raw else .error .GridShapeMismatch

/-- hrrr.py `hrrr_data_download._download_hour`: fetch and decode one
leadtime, rescale MASSDEN by 1e9 to micrograms/m^3, round to two
decimals, and tabulate with ValidTime `cycle + leadtime`. -/
def hrrr_download_hour (fetch : Nat → HrrrRawDataset) (cycle lt : Nat) :
    Except PipelineError (List Row) :=
  match hrrr_open_ds (fetch lt) with
  | .error e => .error e
  | .ok ds =>
    .ok (List.zipWith3
      (fun la lo v => Row.mk la lo (cycle + lt) (v.map (fun x => npRound2 (x * 1000000000))))
      ds.latitude ds.longitude ds.unknown)

/-- hrrr.py `hrrr_data_download`: one frame per leadtime 1..24,
concatenated in leadtime order.  No NaN rows are dropped. -/
def hrrr_data_download (fetch : Nat → HrrrRawDataset) (date : PyDate) (cycle : Nat) :
    Except PipelineError (List Row) :=
  match (List.range' 1 24).mapM (fun lt => hrrr_download_hour fetch cycle lt) with
  | .error e => .error e
  | .ok dfs => .ok dfs.flatten

/- ---------------------------------------------------------------
   C9: dependence of the fixed-cycle ValidTime column on the cycle.
   --------------------------------------------------------------- -/

/-- ValidTime column fragment contributed by step `i`, as a function
of the coordinate-plane lengths and the per-position missingness
mask of the step's PM25 plane. -/
def maskStepCol (i : Nat) : Nat → Nat → List Bool → List Nat
  | a+1, b+1, m :: ms => if m then (12 + i) :: maskStepCol i a b ms else maskStepCol i a b ms
  | _, _, _ => []

/- ---------------------------------------------------------------
   Spatial neighbor filter (hrrr.py find_nearby_predictions).
   Coordinates are degrees; sklearn's haversine_distances is the
   unit-sphere haversine formula on (lat, lon) pairs in radians.
   --------------------------------------------------------------- -/

/-- Models `np.radians`: degrees to radians. -/
noncomputable def toRadians (x : Rat) : ℝ := (x : ℝ) * (Real.pi / 180)

/-- Unit-sphere haversine great-circle distance between two
(latitude, longitude) points given in radians (the formula computed
by sklearn.metrics.pairwise.haversine_distances). -/
noncomputable def haversine_distances (lat1 lon1 lat2 lon2 : ℝ) : ℝ :=
  2 * Real.arcsin (Real.sqrt
    ((Real.sin ((lat2 - lat1) / 2))^2
      + Real.cos lat1 * Real.cos lat2 * (Real.sin ((lon2 - lon1) / 2))^2))

/-- Distance in kilometers from the target coordinate to a table
row: Earth radius 6371 km times the haversine distance of the
radian-converted coordinates. -/
noncomputable def distToTarget (coordinates : Rat × Rat) (r : Row) : ℝ :=
  6371 * haversine_distances (toRadians coordinates.1) (toRadians coordinates.2)
    (toRadians r.Latitude) (toRadians r.Longitude)

open Classical in
/-- hrrr.py `find_nearby_predictions`: keep exactly the rows whose
haversine distance to the target is at most `max_distance`
(default 10.0 km), in the original row order, rows unchanged. -/
noncomputable def find_nearby_predictions (predictions : List Row)
    (coordinates : Rat × Rat) (max_distance : ℝ) : List Row :=
  predictions.filter (fun r => decide (distToTarget coordinates r ≤ max_distance))

/- ---------------------------------------------------------------
   Experiment orchestrator (experiment.py).
   --------------------------------------------------------------- -/

/-- Result payload of one metric on one day; `missing` stands for an
absent/NaN result, the MissingValue condition of the spec. -/
inductive MetricValue where
  | num : Rat → MetricValue
  | missing : MetricValue
deriving DecidableEq

/-- Modelled from the spec: the Metric interface (metrics.py is not
among the sources); a metric has a name and evaluates one day's
aggregated data. -/
structure Metric (D : Type) where
  name : String
  eval : D → MetricValue

/-- Modelled from the spec: DailyData (daydataclass.py is not among
the sources) is one day's aggregated forecast/ground-truth bundle;
the orchestrator uses only its date key and treats the payload
opaquely. -/
structure DailyData (D : Type) where
  date : String
  payload : D

/-- experiment.py `Experiment.evaluate_metrics`: for every loaded
day in order, the mapping metric name to metric result. -/
def evaluate_metrics {D : Type} (metrics : List (Metric D))
    (daily_data : List (DailyData D)) :
    List (String × List (String × MetricValue)) :=
  daily_data.map (fun day => (day.date, metrics.map (fun m => (m.name, m.eval day.payload))))

/-- Whether a metric value is the missing-value condition. -/
def isMissingV : MetricValue → Bool
  | .missing => true
  | _ => false

/-- Whether a day's results contain a missing value. -/
def hasMissing (res : List (String × MetricValue)) : Bool :=
  res.any (fun p => isMissingV p.2)

/-- Modelled from the spec: `json_tricks.dump` (an external library)
raises the MissingValue ValueError when a day's metric results
contain absent/NaN values, and otherwise writes the document. -/
def json_tricks_dump (day_results : List (String × MetricValue)) :
    Except Unit (List (String × MetricValue)) :=
  if hasMissing day_results then .error () else .ok day_results

/-- experiment.py `Experiment.save_results`: iterate the per-day
results in order; try to dump each day; on the missing-value
ValueError print a warning naming the date and skip that day.
Returns the persisted documents and the warned dates. -/
def save_results : List (String × List (String × MetricValue)) →
    List (String × List (String × MetricValue)) × List String
  | [] => ([], [])
  | (date, day_results) :: rest =>
    let out := save_results rest
    match json_tricks_dump day_results with
    | .ok doc => ((date, doc) :: out.1, out.2)
    | .error _ => (out.1, date :: out.2)

/- ---------------------------------------------------------------
   Numeric-portability conversion (experiment.py
   Experiment._convert_numpy_types).
   --------------------------------------------------------------- -/

/-- Numpy array contents: homogeneous nested arrays of numpy
scalars. -/
inductive NpArr where
  | intEl : Int → NpArr
  | floatEl : Rat → NpArr
  | boolEl : Bool → NpArr
  | arr : List NpArr → NpArr

/-- Python objects as seen by `_convert_numpy_types`: dicts, lists,
numpy scalars and arrays, and native values. -/
inductive PyObj where
  | dict : List (String × PyObj) → PyObj
  | list : List PyObj → PyObj
  | npInt : Int → PyObj
  | npFloat : Rat → PyObj
  | npBool : Bool → PyObj
  | ndarray : NpArr → PyObj
  | pyInt : Int → PyObj
  | pyFloat : Rat → PyObj
  | pyBool : Bool → PyObj
  | pyStr : String → PyObj
  | pyNone : PyObj

mutual

/-- numpy `ndarray.tolist()`: nested native lists of native
scalars. -/
def tolist : NpArr → PyObj
  | .intEl i => .pyInt i
  | .floatEl q => .pyFloat q
  | .boolEl b => .pyBool b
  | .arr l => .list (tolistList l)

def tolistList : List NpArr → List PyObj
  | [] => []
  | a :: as => tolist a :: tolistList as

end

mutual

/-- experiment.py `Experiment._convert_numpy_types`: recursively
convert dict values and list items; `int()` numpy integers,
`float()` numpy floats, `tolist()` numpy arrays, `bool()` numpy and
native bools; return everything else unchanged. -/
def convert_numpy_types : PyObj → PyObj
  | .dict kvs => .dict (convertKVs kvs)
  | .list xs => .list (convertList xs)
  | .npInt i => .pyInt i
  | .npFloat q => .pyFloat q
  | .ndarray a => tolist a
  | .npBool b => .pyBool b
  | .pyBool b => .pyBool b
  | .pyInt i => .pyInt i
  | .pyFloat q => .pyFloat q
  | .pyStr s => .pyStr s
  | .pyNone => .pyNone

def convertList : List PyObj → List PyObj
  | [] => []
  | x :: xs => convert_numpy_types x :: convertList xs

def convertKVs : List (String × PyObj) → List (String × PyObj)
  | [] => []
  | (k, v) :: kvs => (k, convert_numpy_types v) :: convertKVs kvs

end

/-- Every value emitted by `npRound2` is an integer number of
hundredths, i.e. has exactly two decimal places. -/
theorem npRound2_two_decimals (q : ℚ) : ∃ n : ℤ, npRound2 q = (n : ℚ) / 100 := by
  refine ⟨roundHalfEven100 q, ?_⟩
  unfold npRound2
  rw [Rat.divInt_eq_div]
  norm_num

/-- `get_AQM_version` never reports an invalid cycle. -/
theorem get_AQM_version_ne_InvalidCycle (day : PyDate) :
    get_AQM_version day ≠ .error .InvalidCycle := by
  unfold get_AQM_version
  split <;> simp_all <;> split <;> simp_all <;> split <;> simp_all

/-- C2: the format-epoch selection maps 2020-06-01 to AQMv5,
2021-07-20 (inclusive boundary) to AQMv6, 2024-05-14 (inclusive
boundary) to AQMv7, and every calendar date before the start of the
earliest epoch (2020-01-01, i.e. any date of an earlier year) fails
with UnsupportedPeriod. -/
theorem C2_epoch_selection :
    get_AQM_version ⟨2020, 6, 1⟩ = .ok .AQMv5
    ∧ get_AQM_version ⟨2021, 7, 20⟩ = .ok .AQMv6
    ∧ get_AQM_version ⟨2024, 5, 14⟩ = .ok .AQMv7
    ∧ ∀ d : PyDate, 1 ≤ d.month → 1 ≤ d.day →
        PyDate.ltB d ⟨2020, 1, 1⟩ = true →
        get_AQM_version d = .error .UnsupportedPeriod := by
  refine ⟨by decide, by decide, by decide, ?_⟩
  intro d hm hd hlt
  have hy : d.year < 2020 := by
    by_contra hy
    unfold PyDate.ltB at hlt
    by_cases h1 : d.year = 2020
    · by_cases h2 : d.month = 1 <;> simp [h1, h2] at hlt <;> omega
    · simp [h1] at hlt; omega
  unfold get_AQM_version
  simp [hy]

/-- C2 witness: a concrete date of an earlier year is rejected. -/
theorem C2_epoch_selection_witness :
    get_AQM_version ⟨2019, 12, 31⟩ = .error .UnsupportedPeriod :=
  C2_epoch_selection.2.2.2 ⟨2019, 12, 31⟩ (by decide) (by decide) (by decide)

/-- C3: the fixed-cycle locator/fetcher fails with InvalidCycle for
every cycle outside {6, 12} and never raises InvalidCycle for cycle
6 or 12 (those runs either succeed or fail with a different error
kind such as UnsupportedPeriod). -/
theorem C3_cycle_validation (fetch : String → NaqfcDataset) (day : PyDate) (cycle : Int) :
    ((cycle ≠ 6 ∧ cycle ≠ 12) →
      create_naqfc_url_and_get_xr fetch day cycle = .error .InvalidCycle)
    ∧ ((cycle = 6 ∨ cycle = 12) →
      create_naqfc_url_and_get_xr fetch day cycle ≠ .error .InvalidCycle) := by
  constructor
  · intro h
    unfold create_naqfc_url_and_get_xr
    simp [h]
  · intro h
    unfold create_naqfc_url_and_get_xr
    have hcond : ¬ (cycle ≠ 6 ∧ cycle ≠ 12) := by
      rcases h with h | h <;> simp [h]
    simp only [hcond, if_false]
    cases hv : get_AQM_version day with
    | error e =>
      have := get_AQM_version_ne_InvalidCycle day
      rw [hv] at this
      simp
      intro he
      exact absurd (by rw [he]) this
    | ok v => simp

/-- C3 witness: cycle 9 is rejected with InvalidCycle while cycles 6
and 12 are not rejected with InvalidCycle. -/
theorem C3_cycle_validation_witness :
    create_naqfc_url_and_get_xr (fun _ => ⟨[], [], fun _ => []⟩) ⟨2023, 1, 1⟩ 9
        = .error .InvalidCycle
    ∧ create_naqfc_url_and_get_xr (fun _ => ⟨[], [], fun _ => []⟩) ⟨2023, 1, 1⟩ 6
        ≠ .error .InvalidCycle
    ∧ create_naqfc_url_and_get_xr (fun _ => ⟨[], [], fun _ => []⟩) ⟨2023, 1, 1⟩ 12
        ≠ .error .InvalidCycle :=
  ⟨(C3_cycle_validation _ _ 9).1 (by decide),
   (C3_cycle_validation _ _ 6).2 (Or.inl rfl),
   (C3_cycle_validation _ _ 12).2 (Or.inr rfl)⟩

/-- C7: on a manifest whose MASSDEN line is followed by another
line, the partial fetcher requests exactly the byte range from the
MASSDEN line's offset to the next line's offset; but when the
MASSDEN line is the last manifest line, the code interpolates
Python None into the f-string and sends the malformed header
`bytes=<start>-None` instead of the open-ended range
`bytes=<start>-` the spec describes. -/
theorem C7_byte_range :
    massden_range_header
        ["1:0:d=20230101:REFC:entire atmosphere:1 hour fcst:",
         "2:4732:d=20230101:MASSDEN:8 m above ground:1 hour fcst:",
         "3:9143:d=20230101:TMP:surface:1 hour fcst:"]
      = some "bytes=4732-9143"
    ∧ massden_range_header
        ["1:0:d=20230101:MASSDEN:8 m above ground:1 hour fcst:"]
      = some "bytes=0-None" := by
  constructor
  · decide
  · decide

/- ---------------------------------------------------------------
   List lemmas used to reason about the two reducers.
   --------------------------------------------------------------- -/

/-- Inversion for `List.zipWith3`: every element of the zip is the
image of members of the three input lists. -/
theorem mem_zipWith3 {α β γ δ : Type} {f : α → β → γ → δ} :
    ∀ {as : List α} {bs : List β} {cs : List γ} {d : δ},
      d ∈ List.zipWith3 f as bs cs → ∃ a ∈ as, ∃ b ∈ bs, ∃ c ∈ cs, d = f a b c := by
  intro as
  induction as with
  | nil => intro bs cs d hd; simp [List.zipWith3] at hd
  | cons a as ih =>
    intro bs cs d hd
    cases bs with
    | nil => simp [List.zipWith3] at hd
    | cons b bs =>
      cases cs with
      | nil => simp [List.zipWith3] at hd
      | cons c cs =>
        simp only [List.zipWith3, List.mem_cons] at hd
        rcases hd with hd | hd
        · exact ⟨a, by simp, b, by simp, c, by simp, hd⟩
        · obtain ⟨a', ha, b', hb, c', hc, hd⟩ := ih hd
          exact ⟨a', by simp [ha], b', by simp [hb], c', by simp [hc], hd⟩

/-- `mapM` over `Except` succeeds exactly when it succeeds
elementwise, in order. -/
theorem mapM_ok_forall₂ {α β ε : Type} (f : α → Except ε β) :
    ∀ (l : List α) (res : List β), l.mapM f = .ok res →
      List.Forall₂ (fun a b => f a = .ok b) l res := by
  intro l
  induction l with
  | nil =>
    intro res h
    simp only [List.mapM_nil, pure, Except.pure, Except.ok.injEq] at h
    rw [← h]
    exact List.Forall₂.nil
  | cons a l ih =>
    intro res h
    rw [List.mapM_cons] at h
    cases hfa : f a with
    | error e => rw [hfa] at h; simp [bind, Except.bind] at h
    | ok b =>
      rw [hfa] at h
      cases hl : l.mapM f with
      | error e => rw [hl] at h; simp [bind, Except.bind, pure, Except.pure] at h
      | ok bs =>
        rw [hl] at h
        simp only [bind, Except.bind, pure, Except.pure, Except.ok.injEq] at h
        rw [← h]
        exact List.Forall₂.cons hfa (ih bs hl)

/-- A member of the left list of a `Forall₂` has a related member on
the right. -/
theorem forall₂_mem_left {α β : Type} {R : α → β → Prop} :
    ∀ {l₁ : List α} {l₂ : List β}, List.Forall₂ R l₁ l₂ →
      ∀ {a}, a ∈ l₁ → ∃ b ∈ l₂, R a b := by
  intro l₁ l₂ h
  induction h with
  | nil => intro a ha; cases ha
  | cons hr _ ih =>
    intro a ha
    rcases List.mem_cons.mp ha with rfl | ha
    · exact ⟨_, List.mem_cons_self _ _, hr⟩
    · obtain ⟨b, hb, hrb⟩ := ih ha
      exact ⟨b, List.mem_cons_of_mem _ hb, hrb⟩

/-- A member of the right list of a `Forall₂` has a related member
on the left. -/
theorem forall₂_mem_right {α β : Type} {R : α → β → Prop} :
    ∀ {l₁ : List α} {l₂ : List β}, List.Forall₂ R l₁ l₂ →
      ∀ {b}, b ∈ l₂ → ∃ a ∈ l₁, R a b := by
  intro l₁ l₂ h
  induction h with
  | nil => intro b hb; cases hb
  | cons hr _ ih =>
    intro b hb
    rcases List.mem_cons.mp hb with rfl | hb
    · exact ⟨_, List.mem_cons_self _ _, hr⟩
    · obtain ⟨a, ha, hra⟩ := ih hb
      exact ⟨a, List.mem_cons_of_mem _ ha, hra⟩

/-- Rows all carrying the same ValidTime are pairwise non-decreasing. -/
theorem pairwise_le_of_const {df : List Row} {v : Nat}
    (h : ∀ r ∈ df, r.ValidTime = v) :
    df.Pairwise (fun a b => a.ValidTime ≤ b.ValidTime) := by
  induction df with
  | nil => exact List.Pairwise.nil
  | cons r df ih =>
    refine List.pairwise_cons.mpr ⟨?_, ih fun x hx => h x (List.mem_cons_of_mem _ hx)⟩
    intro b hb
    rw [h r (List.mem_cons_self _ _), h b (List.mem_cons_of_mem _ hb)]

/-- Concatenating blocks of constant ValidTime in non-decreasing
block order yields a non-decreasing ValidTime column. -/
theorem pairwise_le_flatten_blocks :
    ∀ {dfs : List (List Row)} {vs : List Nat},
      List.Forall₂ (fun df v => ∀ r ∈ df, r.ValidTime = v) dfs vs →
      vs.Pairwise (· ≤ ·) →
      (dfs.flatten.map Row.ValidTime).Pairwise (· ≤ ·) := by
  intro dfs vs hf
  induction hf with
  | nil => intro _; simp
  | @cons df v dfs' vs' hdf htail ih =>
    intro hs
    have hs' := List.pairwise_cons.mp hs
    rw [List.flatten_cons, List.map_append, List.pairwise_append]
    refine ⟨?_, ih hs'.2, ?_⟩
    · rw [List.pairwise_map]
      exact pairwise_le_of_const hdf
    · intro x hx y hy
      obtain ⟨rx, hrx, hxe⟩ := List.mem_map.mp hx
      obtain ⟨ry, hry, hye⟩ := List.mem_map.mp hy
      obtain ⟨df', hdf', hry'⟩ := List.mem_flatten.mp hry
      obtain ⟨v', hv', hconst⟩ := forall₂_mem_left htail hdf'
      rw [← hxe, ← hye, hdf rx hrx, hconst ry hry']
      exact hs'.1 v' hv'

/- ---------------------------------------------------------------
   Structural inversion of the two reducers.
   --------------------------------------------------------------- -/

/-- Inversion of `naqfc_data_download` in the success case. -/
theorem naqfc_data_download_ok {fetch : String → NaqfcDataset} {date : PyDate}
    {cycle : Int} {t : List Row}
    (h : naqfc_data_download fetch date cycle = .ok t) :
    ∃ ds, create_naqfc_url_and_get_xr fetch date cycle = .ok ds ∧
      t = (((List.range' 1 24).map (naqfc_step_df ds)).flatten.filter
            (fun r => r.PM25.isSome)) := by
  unfold naqfc_data_download at h
  cases hc : create_naqfc_url_and_get_xr fetch date cycle with
  | error e => rw [hc] at h; cases h
  | ok ds =>
    rw [hc] at h
    simp only [Except.ok.injEq] at h
    exact ⟨ds, rfl, h.symm⟩

/-- Inversion of `hrrr_data_download` in the success case. -/
theorem hrrr_data_download_ok {fetch : Nat → HrrrRawDataset} {date : PyDate}
    {cycle : Nat} {t : List Row}
    (h : hrrr_data_download fetch date cycle = .ok t) :
    ∃ dfs, (List.range' 1 24).mapM (fun lt => hrrr_download_hour fetch cycle lt) = .ok dfs
      ∧ t = dfs.flatten := by
  unfold hrrr_data_download at h
  cases hm : (List.range' 1 24).mapM (fun lt => hrrr_download_hour fetch cycle lt) with
  | error e => rw [hm] at h; cases h
  | ok dfs =>
    rw [hm] at h
    simp only [Except.ok.injEq] at h
    exact ⟨dfs, rfl, h.symm⟩

/-- Every row of a naqfc step frame carries ValidTime `12 + i`. -/
theorem naqfc_step_df_validTime (ds : NaqfcDataset) (i : Nat) :
    ∀ r ∈ naqfc_step_df ds i, r.ValidTime = 12 + i := by
  intro r hr
  obtain ⟨la, _, lo, _, p, _, rfl⟩ := mem_zipWith3 hr
  rfl

/-- The decode assert passes only on the dataset itself. -/
theorem hrrr_open_ds_ok {raw ds : HrrrRawDataset} (h : hrrr_open_ds raw = .ok ds) :
    ds = raw := by
  unfold hrrr_open_ds at h
  split at h
  · simp only [Except.ok.injEq] at h
    exact h.symm
  · cases h

/-- Inversion of a successful hrrr hourly frame. -/
theorem hrrr_download_hour_ok {fetch : Nat → HrrrRawDataset} {cycle lt : Nat}
    {df : List Row} (h : hrrr_download_hour fetch cycle lt = .ok df) :
    df = List.zipWith3
      (fun la lo v => Row.mk la lo (cycle + lt) (v.map (fun x => npRound2 (x * 1000000000))))
      (fetch lt).latitude (fetch lt).longitude (fetch lt).unknown := by
  unfold hrrr_download_hour at h
  cases ho : hrrr_open_ds (fetch lt) with
  | error e => rw [ho] at h; cases h
  | ok ds =>
    rw [ho] at h
    simp only [Except.ok.injEq] at h
    rw [← h, hrrr_open_ds_ok ho]

/-- Every row of a successful hrrr hourly frame carries ValidTime
`cycle + leadtime`. -/
theorem hrrr_download_hour_validTime {fetch : Nat → HrrrRawDataset} {cycle lt : Nat}
    {df : List Row} (h : hrrr_download_hour fetch cycle lt = .ok df) :
    ∀ r ∈ df, r.ValidTime = cycle + lt := by
  intro r hr
  rw [hrrr_download_hour_ok h] at hr
  obtain ⟨la, _, lo, _, v, _, rfl⟩ := mem_zipWith3 hr
  rfl

/-- Every PM25 value of a successful hrrr hourly frame is the
two-decimal rounding of a raw MASSDEN value rescaled by 1e9. -/
theorem hrrr_download_hour_pm25 {fetch : Nat → HrrrRawDataset} {cycle lt : Nat}
    {df : List Row} (h : hrrr_download_hour fetch cycle lt = .ok df) :
    ∀ r ∈ df, ∃ v ∈ (fetch lt).unknown,
      r.PM25 = v.map (fun x => npRound2 (x * 1000000000)) := by
  intro r hr
  rw [hrrr_download_hour_ok h] at hr
  obtain ⟨la, _, lo, _, v, hv, rfl⟩ := mem_zipWith3 hr
  exact ⟨v, hv, rfl⟩

/-- The ValidTime targets `12 + i` of the naqfc steps, in step
order, are non-decreasing. -/
theorem naqfc_vs_pairwise :
    ((List.range' 1 24).map (fun i => 12 + i)).Pairwise (· ≤ ·) := by
  rw [List.pairwise_map]
  exact (List.pairwise_lt_range' 1 24).imp (fun h => by omega)

/-- The ValidTime targets `cycle + lt` of the hrrr frames, in
leadtime order, are non-decreasing. -/
theorem hrrr_vs_pairwise (cycle : Nat) :
    ((List.range' 1 24).map (fun lt => cycle + lt)).Pairwise (· ≤ ·) := by
  rw [List.pairwise_map]
  exact (List.pairwise_lt_range' 1 24).imp (fun h => by omega)

/-- C6: for both sources, the ValidTime column of every successfully
produced per-cycle table is monotonically non-decreasing in row
order (the rows being the concatenation of the lead-step frames in
ascending leadtime / step order). -/
theorem C6_validtime_monotone :
    (∀ (fetch : String → NaqfcDataset) (date : PyDate) (cycle : Int) (t : List Row),
        naqfc_data_download fetch date cycle = .ok t →
        (t.map Row.ValidTime).Pairwise (· ≤ ·))
    ∧ (∀ (fetch : Nat → HrrrRawDataset) (date : PyDate) (cycle : Nat) (t : List Row),
        hrrr_data_download fetch date cycle = .ok t →
        (t.map Row.ValidTime).Pairwise (· ≤ ·)) := by
  constructor
  · intro fetch date cycle t h
    obtain ⟨ds, _, rfl⟩ := naqfc_data_download_ok h
    have hf : List.Forall₂ (fun df v => ∀ r ∈ df, r.ValidTime = v)
        ((List.range' 1 24).map (naqfc_step_df ds))
        ((List.range' 1 24).map (fun i => 12 + i)) := by
      rw [List.forall₂_map_left_iff, List.forall₂_map_right_iff]
      apply List.forall₂_same.mpr
      intro i _
      exact naqfc_step_df_validTime ds i
    have hblocks := pairwise_le_flatten_blocks hf naqfc_vs_pairwise
    exact hblocks.sublist
      ((List.filter_sublist _).map Row.ValidTime)
  · intro fetch date cycle t h
    obtain ⟨dfs, hm, rfl⟩ := hrrr_data_download_ok h
    have hall := mapM_ok_forall₂ _ _ _ hm
    have hf : List.Forall₂ (fun df v => ∀ r ∈ df, r.ValidTime = v) dfs
        ((List.range' 1 24).map (fun lt => cycle + lt)) := by
      rw [List.forall₂_map_right_iff]
      exact hall.flip.imp (fun _ _ hab => hrrr_download_hour_validTime hab)
    exact pairwise_le_flatten_blocks hf (hrrr_vs_pairwise cycle)

/-- C6 witness: concrete runs of both reducers with their ValidTime
columns non-decreasing. -/
theorem C6_validtime_monotone_witness :
    ((((List.range' 1 24).map (fun i => Row.mk 1 2 (12 + i) (some (3:ℚ)))).map
        Row.ValidTime).Pairwise (· ≤ ·))
    ∧ ((((List.range' 1 24).map (fun lt => Row.mk 1 2 lt (none : Option ℚ))).map
        Row.ValidTime).Pairwise (· ≤ ·)) :=
  ⟨C6_validtime_monotone.1 (fun _ => ⟨[1], [2], fun _ => [some 3]⟩) ⟨2023, 1, 1⟩ 6
      _ (by decide),
   C6_validtime_monotone.2 (fun _ => ⟨[1], [2], [none]⟩) ⟨2023, 7, 1⟩ 0
      _ (by decide)⟩

/-- C5 counterexample: the hourly-leadtime reducer does not drop
rows with missing PM25.  With a grid whose single MASSDEN value is
NaN, the produced table contains a row with missing PM25 (the claim
asserts this never happens for either source). -/
theorem C5_counterexample :
    hrrr_data_download (fun _ => ⟨[1], [2], [none]⟩) ⟨2023, 7, 1⟩ 0
      = .ok ((List.range' 1 24).map (fun lt => Row.mk 1 2 lt none))
    ∧ Row.mk 1 2 1 none ∈ (List.range' 1 24).map (fun lt => Row.mk 1 2 lt (none : Option ℚ))
    ∧ (Row.mk 1 2 1 (none : Option ℚ)).PM25.isSome = false :=
  ⟨by decide, by decide, by decide⟩

/-- C5 (amended): the fixed-cycle reducer drops every row with
missing PM25 before returning its table; the hourly-leadtime
reducer performs no such drop (see the counterexample). -/
theorem C5_naqfc_no_missing (fetch : String → NaqfcDataset) (date : PyDate)
    (cycle : Int) (t : List Row)
    (h : naqfc_data_download fetch date cycle = .ok t) :
    ∀ r ∈ t, r.PM25.isSome = true := by
  obtain ⟨ds, _, rfl⟩ := naqfc_data_download_ok h
  intro r hr
  exact (List.mem_filter.mp hr).2

/-- C5 witness: a concrete run of the fixed-cycle reducer, with a
concrete retained row whose PM25 is present. -/
theorem C5_naqfc_no_missing_witness :
    (Row.mk 1 2 13 (some 3) : Row).PM25.isSome = true :=
  C5_naqfc_no_missing (fun _ => ⟨[1], [2], fun _ => [some 3]⟩) ⟨2023, 1, 1⟩ 6
    ((List.range' 1 24).map (fun i => Row.mk 1 2 (12 + i) (some 3))) (by decide)
    (Row.mk 1 2 13 (some 3)) (by decide)

/-- C8: the hourly-leadtime source's emitted PM25 values are the
two-decimal roundings of the raw values rescaled by exactly 1e9;
the fixed-cycle source's emitted PM25 values are the two-decimal
roundings of the raw values; and every rounded value is an integer
number of hundredths. -/
theorem C8_unit_conversion_and_rounding :
    (∀ (fetch : Nat → HrrrRawDataset) (date : PyDate) (cycle : Nat) (t : List Row),
        hrrr_data_download fetch date cycle = .ok t →
        ∀ r ∈ t, ∃ lt ∈ List.range' 1 24, ∃ v ∈ (fetch lt).unknown,
          r.PM25 = v.map (fun x => npRound2 (x * 1000000000)))
    ∧ (∀ (fetch : String → NaqfcDataset) (date : PyDate) (cycle : Int)
          (ds : NaqfcDataset) (t : List Row),
        create_naqfc_url_and_get_xr fetch date cycle = .ok ds →
        naqfc_data_download fetch date cycle = .ok t →
        ∀ r ∈ t, ∃ i ∈ List.range' 1 24, ∃ v ∈ ds.pmtf i, r.PM25 = v.map npRound2)
    ∧ (∀ q : ℚ, ∃ n : ℤ, npRound2 q = (n : ℚ) / 100) := by
  refine ⟨?_, ?_, npRound2_two_decimals⟩
  · intro fetch date cycle t h r hr
    obtain ⟨dfs, hm, rfl⟩ := hrrr_data_download_ok h
    obtain ⟨df, hdf, hrdf⟩ := List.mem_flatten.mp hr
    obtain ⟨lt, hlt, hok⟩ := forall₂_mem_right (mapM_ok_forall₂ _ _ _ hm) hdf
    obtain ⟨v, hv, hpm⟩ := hrrr_download_hour_pm25 hok r hrdf
    exact ⟨lt, hlt, v, hv, hpm⟩
  · intro fetch date cycle ds t hds h r hr
    obtain ⟨ds', hds', rfl⟩ := naqfc_data_download_ok h
    rw [hds] at hds'
    simp only [Except.ok.injEq] at hds'
    subst hds'
    obtain ⟨df, hdf, hrdf⟩ := List.mem_flatten.mp (List.mem_filter.mp hr).1
    obtain ⟨i, hi, hdfeq⟩ := List.mem_map.mp hdf
    rw [← hdfeq] at hrdf
    obtain ⟨la, _, lo, _, p, hp, rfl⟩ := mem_zipWith3 hrdf
    exact ⟨i, hi, p, hp, rfl⟩

/-- C8 witness: concrete runs of both reducers with a concrete row
each, whose PM25 values take the stated rounded/rescaled form. -/
theorem C8_unit_conversion_and_rounding_witness :
    (∃ lt ∈ List.range' 1 24, ∃ v ∈ ([none] : List (Option ℚ)),
        (Row.mk 1 2 1 (none : Option ℚ)).PM25
          = v.map (fun x => npRound2 (x * 1000000000)))
    ∧ (∃ i ∈ List.range' 1 24, ∃ v ∈ ([some 3] : List (Option ℚ)),
        (Row.mk 1 2 13 (some 3) : Row).PM25 = v.map npRound2) :=
  ⟨C8_unit_conversion_and_rounding.1 (fun _ => ⟨[1], [2], [none]⟩) ⟨2023, 7, 1⟩ 0
      ((List.range' 1 24).map (fun lt => Row.mk 1 2 lt none)) (by decide)
      (Row.mk 1 2 1 none) (by decide),
   C8_unit_conversion_and_rounding.2.1 (fun _ => ⟨[1], [2], fun _ => [some 3]⟩)
      ⟨2023, 1, 1⟩ 6 ⟨[1], [2], fun _ => [some 3]⟩
      ((List.range' 1 24).map (fun i => Row.mk 1 2 (12 + i) (some 3))) (by rfl)
      (by decide) (Row.mk 1 2 13 (some 3)) (by decide)⟩

/-- The retained ValidTime entries of one naqfc step depend only on
the plane lengths and the missingness mask. -/
theorem step_col_mask :
    ∀ (lats lons : List Rat) (ps : List (Option Rat)) (i : Nat),
      ((List.zipWith3 (fun la lo p => Row.mk la lo (12 + i) (p.map npRound2)) lats lons ps).filter
          (fun r => r.PM25.isSome)).map Row.ValidTime
        = maskStepCol i lats.length lons.length (ps.map Option.isSome) := by
  intro lats
  induction lats with
  | nil => intro lons ps i; simp [List.zipWith3, maskStepCol]
  | cons la lats ih =>
    intro lons ps i
    cases lons with
    | nil => simp [List.zipWith3, maskStepCol]
    | cons lo lons =>
      cases ps with
      | nil => simp [List.zipWith3, maskStepCol]
      | cons p ps =>
        cases p with
        | none =>
          simp only [List.zipWith3, List.length_cons, List.map_cons, maskStepCol,
            Option.isSome_none, if_false, Bool.false_eq_true]
          rw [List.filter_cons_of_neg (by simp)]
          exact ih lons ps i
        | some q =>
          simp only [List.zipWith3, List.length_cons, List.map_cons, maskStepCol,
            Option.isSome_some, if_true]
          rw [List.filter_cons_of_pos (by simp), List.map_cons]
          rw [ih lons ps i]

/-- The whole naqfc ValidTime column as a function of the plane
lengths and missingness masks. -/
theorem naqfc_col_eq (ds : NaqfcDataset) :
    ((((List.range' 1 24).map (naqfc_step_df ds)).flatten.filter
        (fun r => r.PM25.isSome)).map Row.ValidTime)
      = ((List.range' 1 24).map (fun i =>
          maskStepCol i ds.latitude.length ds.longitude.length
            ((ds.pmtf i).map Option.isSome))).flatten := by
  rw [List.filter_flatten, List.map_flatten, List.map_map, List.map_map]
  congr 1
  apply List.map_congr_left
  intro i _
  exact step_col_mask ds.latitude ds.longitude (ds.pmtf i) i

/-- A valid cycle makes the locator succeed with the fetched
dataset. -/
theorem create_naqfc_ok_valid (fetch : String → NaqfcDataset) (date : PyDate)
    (v : AQMVersion) (c : Int) (hv : get_AQM_version date = .ok v)
    (hc : c = 6 ∨ c = 12) :
    create_naqfc_url_and_get_xr fetch date c = .ok (fetch (naqfc_url v date c)) := by
  unfold create_naqfc_url_and_get_xr
  have hg : ¬(c ≠ 6 ∧ c ≠ 12) := by rcases hc with rfl | rfl <;> simp
  rw [if_neg hg, hv]

/-- The reducer's table, given a successful locate/fetch. -/
theorem naqfc_download_eq (fetch : String → NaqfcDataset) (date : PyDate)
    (c : Int) (ds : NaqfcDataset)
    (hc : create_naqfc_url_and_get_xr fetch date c = .ok ds) :
    naqfc_data_download fetch date c
      = .ok ((((List.range' 1 24).map (naqfc_step_df ds)).flatten).filter
          (fun r => r.PM25.isSome)) := by
  unfold naqfc_data_download
  rw [hc]

/-- C9 counterexample: the ValidTime column of the fixed-cycle
table is not independent of the requested cycle, because rows are
dropped according to the fetched data's missingness, which depends
on the cycle being fetched.  Here the cycle-6 object is all-NaN
(empty column) while the cycle-12 object has a value (non-empty
column). -/
theorem C9_counterexample :
    Except.map (List.map Row.ValidTime)
        (naqfc_data_download
          (fun s => if s = naqfc_url .AQMv6 ⟨2023, 1, 1⟩ 6
            then ⟨[1], [2], fun _ => [none]⟩ else ⟨[1], [2], fun _ => [some 3]⟩)
          ⟨2023, 1, 1⟩ 6)
      ≠ Except.map (List.map Row.ValidTime)
        (naqfc_data_download
          (fun s => if s = naqfc_url .AQMv6 ⟨2023, 1, 1⟩ 6
            then ⟨[1], [2], fun _ => [none]⟩ else ⟨[1], [2], fun _ => [some 3]⟩)
          ⟨2023, 1, 1⟩ 12) := by
  decide

/-- C9 (amended): every row of a fixed-cycle table carries ValidTime
`12 + s` for its step `s` regardless of the cycle; and two runs
differing only in the cycle (6 vs 12) produce identical ValidTime
columns provided the two fetched datasets have equally long
coordinate planes and the same per-step missingness pattern. -/
theorem C9_cycle_noninterference :
    (∀ (fetch : String → NaqfcDataset) (date : PyDate) (cycle : Int) (t : List Row),
        naqfc_data_download fetch date cycle = .ok t →
        ∀ r ∈ t, ∃ s ∈ List.range' 1 24, r.ValidTime = 12 + s)
    ∧ (∀ (fetch : String → NaqfcDataset) (date : PyDate) (v : AQMVersion),
        get_AQM_version date = .ok v →
        (fetch (naqfc_url v date 6)).latitude.length
            = (fetch (naqfc_url v date 12)).latitude.length →
        (fetch (naqfc_url v date 6)).longitude.length
            = (fetch (naqfc_url v date 12)).longitude.length →
        (∀ i, ((fetch (naqfc_url v date 6)).pmtf i).map Option.isSome
            = ((fetch (naqfc_url v date 12)).pmtf i).map Option.isSome) →
        ∃ t6 t12, naqfc_data_download fetch date 6 = .ok t6
          ∧ naqfc_data_download fetch date 12 = .ok t12
          ∧ t6.map Row.ValidTime = t12.map Row.ValidTime) := by
  constructor
  · intro fetch date cycle t h r hr
    obtain ⟨ds, _, rfl⟩ := naqfc_data_download_ok h
    obtain ⟨df, hdf, hrdf⟩ := List.mem_flatten.mp (List.mem_filter.mp hr).1
    obtain ⟨i, hi, hdfeq⟩ := List.mem_map.mp hdf
    rw [← hdfeq] at hrdf
    exact ⟨i, hi, naqfc_step_df_validTime ds i r hrdf⟩
  · intro fetch date v hv hlat hlon hmask
    refine ⟨_, _, naqfc_download_eq fetch date 6 _
        (create_naqfc_ok_valid fetch date v 6 hv (Or.inl rfl)),
      naqfc_download_eq fetch date 12 _
        (create_naqfc_ok_valid fetch date v 12 hv (Or.inr rfl)), ?_⟩
    rw [naqfc_col_eq, naqfc_col_eq]
    congr 1
    apply List.map_congr_left
    intro i _
    rw [hlat, hlon, hmask i]

/-- C9 witness: with a cycle-independent remote state the two
cycles produce identical ValidTime columns, and a concrete row of a
concrete run carries ValidTime 12 + 1. -/
theorem C9_cycle_noninterference_witness :
    (∃ s ∈ List.range' 1 24, (Row.mk 1 2 13 (some 3) : Row).ValidTime = 12 + s)
    ∧ (∃ t6 t12,
        naqfc_data_download (fun _ => ⟨[1], [2], fun _ => [some 3]⟩) ⟨2023, 1, 1⟩ 6
          = .ok t6
        ∧ naqfc_data_download (fun _ => ⟨[1], [2], fun _ => [some 3]⟩) ⟨2023, 1, 1⟩ 12
          = .ok t12
        ∧ t6.map Row.ValidTime = t12.map Row.ValidTime) :=
  ⟨C9_cycle_noninterference.1 (fun _ => ⟨[1], [2], fun _ => [some 3]⟩) ⟨2023, 1, 1⟩ 6
      ((List.range' 1 24).map (fun i => Row.mk 1 2 (12 + i) (some 3))) (by decide)
      (Row.mk 1 2 13 (some 3)) (by decide),
   C9_cycle_noninterference.2 (fun _ => ⟨[1], [2], fun _ => [some 3]⟩) ⟨2023, 1, 1⟩
      .AQMv6 (by decide) rfl rfl (fun _ => rfl)⟩

/-- C1: the spatial neighbor filter is sound and complete — a row is
returned iff it belongs to the table and its haversine great-circle
distance (radians, sphere radius 6371 km) to the target is at most
the radius; so every row not returned is strictly farther than the
radius.  The result is a sublist of the input: original row order
and the rows themselves (hence all columns) are preserved. -/
theorem C1_neighbor_filter (predictions : List Row) (coordinates : Rat × Rat)
    (max_distance : ℝ) :
    (find_nearby_predictions predictions coordinates max_distance).Sublist predictions
    ∧ ∀ r, r ∈ find_nearby_predictions predictions coordinates max_distance
        ↔ (r ∈ predictions ∧ distToTarget coordinates r ≤ max_distance) := by
  constructor
  · exact List.filter_sublist _
  · intro r
    unfold find_nearby_predictions
    rw [List.mem_filter, decide_eq_true_iff]

/-- Days whose results hit the missing-value condition end up
warned. -/
theorem save_results_warned :
    ∀ (results : List (String × List (String × MetricValue))) (date : String)
      (res : List (String × MetricValue)),
      (date, res) ∈ results → hasMissing res = true →
      date ∈ (save_results results).2 := by
  intro results
  induction results with
  | nil => intro _ _ h; cases h
  | cons p rest ih =>
    intro date res hmem hmiss
    obtain ⟨d, r⟩ := p
    rcases List.mem_cons.mp hmem with he | hmem
    · injection he with h1 h2
      subst h1; subst h2
      simp only [save_results, json_tricks_dump, hmiss, if_true]
      exact List.mem_cons_self _ _
    · simp only [save_results, json_tricks_dump]
      split
      · exact ih date res hmem hmiss
      · exact List.mem_cons_of_mem _ (ih date res hmem hmiss)

/-- Days whose results do not hit the missing-value condition are
persisted. -/
theorem save_results_saved_of :
    ∀ (results : List (String × List (String × MetricValue))) (date : String)
      (res : List (String × MetricValue)),
      (date, res) ∈ results → hasMissing res = false →
      (date, res) ∈ (save_results results).1 := by
  intro results
  induction results with
  | nil => intro _ _ h; cases h
  | cons p rest ih =>
    intro date res hmem hmiss
    obtain ⟨d, r⟩ := p
    rcases List.mem_cons.mp hmem with he | hmem
    · injection he with h1 h2
      subst h1; subst h2
      simp only [save_results, json_tricks_dump, hmiss, Bool.false_eq_true, if_false]
      exact List.mem_cons_self _ _
    · simp only [save_results, json_tricks_dump]
      split
      · exact List.mem_cons_of_mem _ (ih date res hmem hmiss)
      · exact ih date res hmem hmiss

/-- Everything persisted comes from the evaluated results and is
free of missing values. -/
theorem save_results_saved_mem :
    ∀ (results : List (String × List (String × MetricValue))) (date : String)
      (doc : List (String × MetricValue)),
      (date, doc) ∈ (save_results results).1 →
      (date, doc) ∈ results ∧ hasMissing doc = false := by
  intro results
  induction results with
  | nil => intro _ _ h; cases h
  | cons p rest ih =>
    intro date doc hmem
    obtain ⟨d, r⟩ := p
    simp only [save_results] at hmem
    rcases hd : json_tricks_dump r with he | hok
    · rw [hd] at hmem
      obtain ⟨h1, h2⟩ := ih date doc hmem
      exact ⟨List.mem_cons_of_mem _ h1, h2⟩
    · rw [hd] at hmem
      unfold json_tricks_dump at hd
      rcases List.mem_cons.mp hmem with he | hmem
      · injection he with h1 h2
        subst h1; subst h2
        split at hd
        · cases hd
        · simp only [Except.ok.injEq] at hd
          subst hd
          refine ⟨List.mem_cons_self _ _, by simp_all⟩
      · obtain ⟨h1, h2⟩ := ih date doc hmem
        exact ⟨List.mem_cons_of_mem _ h1, h2⟩

/-- C4: over an inclusive date range, every day is evaluated; a day
whose metric results raise the missing-value condition at
persistence time is warned and skipped, and every other day's
results are persisted; nothing else is persisted. -/
theorem C4_missing_value_resilience {D : Type} (metrics : List (Metric D))
    (daily_data : List (DailyData D)) :
    ((evaluate_metrics metrics daily_data).map Prod.fst = daily_data.map DailyData.date)
    ∧ (∀ date res, (date, res) ∈ evaluate_metrics metrics daily_data →
        hasMissing res = true →
        date ∈ (save_results (evaluate_metrics metrics daily_data)).2)
    ∧ (∀ date res, (date, res) ∈ evaluate_metrics metrics daily_data →
        hasMissing res = false →
        (date, res) ∈ (save_results (evaluate_metrics metrics daily_data)).1)
    ∧ (∀ date doc, (date, doc) ∈ (save_results (evaluate_metrics metrics daily_data)).1 →
        (date, doc) ∈ evaluate_metrics metrics daily_data ∧ hasMissing doc = false) := by
  refine ⟨?_, save_results_warned _, save_results_saved_of _, save_results_saved_mem _⟩
  unfold evaluate_metrics
  rw [List.map_map]
  rfl

/-- C4 witness: three concrete days, the middle one hitting the
missing-value condition; the middle day is warned while the two
others are persisted. -/
theorem C4_missing_value_resilience_witness :
    ("2023-01-02" ∈ (save_results (evaluate_metrics
        [⟨"rmse", fun b => if b then MetricValue.missing else MetricValue.num 1⟩]
        [⟨"2023-01-01", false⟩, ⟨"2023-01-02", true⟩, ⟨"2023-01-03", false⟩])).2)
    ∧ (("2023-01-01", [("rmse", MetricValue.num 1)]) ∈ (save_results (evaluate_metrics
        [⟨"rmse", fun b => if b then MetricValue.missing else MetricValue.num 1⟩]
        [⟨"2023-01-01", false⟩, ⟨"2023-01-02", true⟩, ⟨"2023-01-03", false⟩])).1)
    ∧ (("2023-01-03", [("rmse", MetricValue.num 1)]) ∈ (save_results (evaluate_metrics
        [⟨"rmse", fun b => if b then MetricValue.missing else MetricValue.num 1⟩]
        [⟨"2023-01-01", false⟩, ⟨"2023-01-02", true⟩, ⟨"2023-01-03", false⟩])).1) :=
  ⟨(C4_missing_value_resilience _ _).2.1 "2023-01-02" [("rmse", MetricValue.missing)]
      (by decide) (by decide),
   (C4_missing_value_resilience _ _).2.2.1 "2023-01-01" [("rmse", MetricValue.num 1)]
      (by decide) (by decide),
   (C4_missing_value_resilience _ _).2.2.1 "2023-01-03" [("rmse", MetricValue.num 1)]
      (by decide) (by decide)⟩

mutual

/-- Converting an array's `tolist()` image changes nothing: it is
already native. -/
theorem convert_tolist : ∀ a : NpArr, convert_numpy_types (tolist a) = tolist a
  | .intEl i => by simp [tolist, convert_numpy_types]
  | .floatEl q => by simp [tolist, convert_numpy_types]
  | .boolEl b => by simp [tolist, convert_numpy_types]
  | .arr l => by
    simp only [tolist, convert_numpy_types, PyObj.list.injEq]
    exact convert_tolistList l

theorem convert_tolistList : ∀ l : List NpArr, convertList (tolistList l) = tolistList l
  | [] => by simp [tolistList, convertList]
  | a :: as => by
    simp only [tolistList, convertList, List.cons.injEq]
    exact ⟨convert_tolist a, convert_tolistList as⟩

end

mutual

theorem convert_idem_aux : ∀ x : PyObj,
    convert_numpy_types (convert_numpy_types x) = convert_numpy_types x
  | .dict kvs => by
    simp only [convert_numpy_types, PyObj.dict.injEq]
    exact convertKVs_idem kvs
  | .list xs => by
    simp only [convert_numpy_types, PyObj.list.injEq]
    exact convertList_idem xs
  | .npInt i => by simp [convert_numpy_types]
  | .npFloat q => by simp [convert_numpy_types]
  | .npBool b => by simp [convert_numpy_types]
  | .ndarray a => by
    simp only [convert_numpy_types]
    exact convert_tolist a
  | .pyInt i => by simp [convert_numpy_types]
  | .pyFloat q => by simp [convert_numpy_types]
  | .pyBool b => by simp [convert_numpy_types]
  | .pyStr s => by simp [convert_numpy_types]
  | .pyNone => by simp [convert_numpy_types]

theorem convertList_idem : ∀ xs : List PyObj, convertList (convertList xs) = convertList xs
  | [] => by simp [convertList]
  | x :: xs => by
    simp only [convertList, List.cons.injEq]
    exact ⟨convert_idem_aux x, convertList_idem xs⟩

theorem convertKVs_idem : ∀ kvs : List (String × PyObj),
    convertKVs (convertKVs kvs) = convertKVs kvs
  | [] => by simp [convertKVs]
  | (k, v) :: kvs => by
    simp only [convertKVs, List.cons.injEq, Prod.mk.injEq]
    exact ⟨⟨trivial, convert_idem_aux v⟩, convertKVs_idem kvs⟩

end

/-- C10: the numeric-portability conversion applied before
persistence is idempotent on every object (any nesting of dicts,
lists, numpy scalars/arrays and native values). -/
theorem C10_convert_idempotent :
    ∀ x : PyObj, convert_numpy_types (convert_numpy_types x) = convert_numpy_types x :=
  convert_idem_aux

end PM25
